import Mathlib

/-!
Verification of the CoroFrame coroutine runtime's core against its
natural-language specification.

The development shallowly embeds the C++ source (namespace `sylar`:
`timer.cpp`, `fiber.cpp`, `scheduler.h`, `ioscheduler.cpp` under
`fiber_lib/6hook/`) into Lean:

* absolute time points (`std::chrono::system_clock::time_point`) are `Int`
  milliseconds, relative periods (`uint64_t` ms) are `Nat`;
* `std::shared_ptr<Timer>` identity is a `tid : Nat` field;
  `std::function<void()>` callbacks are opaque ids, `Option Nat`
  (`none` = `nullptr`);
* `std::set<std::shared_ptr<Timer>, Timer::Comparator>` is a list kept
  sorted by the comparator, with `insert`/`find`/`erase` following the
  comparator's equivalence (two elements neither of which is less than the
  other are the same key);
* functions whose C++ body can abort on a failed `assert`, call a null
  `std::function`, or index a vector out of bounds return `Option`
  (`none` = the abort / undefined behaviour);
* the unboundedly-running `while` loop of `TimerManager::listExpiredCb` is
  given explicit fuel, `none` meaning the loop has not terminated within
  the given number of iterations;
* the single `epoll_ctl` syscall an operation issues is modelled by a
  boolean oracle `epollOk` (`true` = the call returned 0) and the issued
  operations are returned in a log, so "the epoll registration is
  unchanged" is "the log is empty".
-/

namespace sylar

/-! ## Timer model (`timer.h`, `timer.cpp`) -/

/-- A `Timer` object. `tid` models the identity of the underlying
`std::shared_ptr<Timer>`; `m_next` is the absolute deadline in ms;
`m_cb` is the callback (`none` = `nullptr`). -/
structure Timer where
  tid : Nat
  m_recurring : Bool
  m_ms : Nat
  m_next : Int
  m_cb : Option Nat
deriving DecidableEq, Repr

/-- `Timer::Comparator::operator()`: compares `lhs->m_next < rhs->m_next`
only — there is no tie-break, so two timers with equal `m_next` are
equivalent keys for the `std::set`. -/
def timerLt (lhs rhs : Timer) : Prop := lhs.m_next < rhs.m_next

instance : DecidablePred fun p : Timer × Timer => timerLt p.1 p.2 :=
  fun p => inferInstanceAs (Decidable (p.1.m_next < p.2.m_next))

instance (a b : Timer) : Decidable (timerLt a b) :=
  inferInstanceAs (Decidable (a.m_next < b.m_next))

/-- `std::set::insert` on the comparator-sorted list: returns the updated
list and the index the returned iterator points at.  When an equivalent
element (equal `m_next`) is already present, nothing is inserted and the
iterator points at the existing element. -/
def setInsert (t : Timer) : List Timer → List Timer × Nat
  | [] => ([t], 0)
  | x :: xs =>
    if t.m_next < x.m_next then (t :: x :: xs, 0)
    else if x.m_next < t.m_next then
      let r := setInsert t xs
      (x :: r.1, r.2 + 1)
    else (x :: xs, 0)

/-- The `std::set` invariant: strictly sorted by the comparator. -/
def timersSorted (l : List Timer) : Prop :=
  l.Pairwise fun a b => a.m_next < b.m_next

/-- `TimerManager`'s state: the timer set, the `m_tickled` flag and the
last clock probe `m_previouseTime` (ms). -/
structure TimerManager where
  m_timers : List Timer
  m_tickled : Bool
  m_previouseTime : Int
deriving DecidableEq, Repr

/-- `TimerManager::addTimer(std::shared_ptr<Timer>)`: inserts, computes
`at_front = (it == m_timers.begin()) && !m_tickled`, and sets `m_tickled`
when `at_front`.  The returned `Bool` is `at_front`, i.e. whether
`onTimerInsertedAtFront()` is invoked. -/
def TimerManager.addTimer (mgr : TimerManager) (t : Timer) : TimerManager × Bool :=
  let r := setInsert t mgr.m_timers
  let at_front := (r.2 == 0) && !mgr.m_tickled
  ({ mgr with m_timers := r.1, m_tickled := mgr.m_tickled || at_front }, at_front)

/-- Value of `~0ull`. -/
def allOnes : Nat := 2 ^ 64 - 1

/-- `TimerManager::getNextTimer()`: clears `m_tickled`, returns `~0ull`
when the set is empty, `0` when the front deadline is at or before `now`,
else the millisecond delta.  Returns the updated manager and the value. -/
def TimerManager.getNextTimer (mgr : TimerManager) (now : Int) : TimerManager × Nat :=
  let mgr' : TimerManager := { mgr with m_tickled := false }
  match mgr'.m_timers with
  | [] => (mgr', allOnes)
  | t :: _ =>
    if t.m_next ≤ now then (mgr', 0)
    else (mgr', (t.m_next - now).toNat)

/-- `TimerManager::detectClockRollover()`: rollover when `now` is more
than one hour (60*60*1000 ms) before the previous probe; always updates
`m_previouseTime` to `now`. -/
def TimerManager.detectClockRollover (mgr : TimerManager) (now : Int) : TimerManager × Bool :=
  ({ mgr with m_previouseTime := now },
    decide (now < mgr.m_previouseTime - 60 * 60 * 1000))

/-- The `while` loop of `TimerManager::listExpiredCb` with explicit fuel.
Arguments: fuel, the `rollover` flag (computed once before the loop),
`now`, the timer set, the accumulated `cbs` vector, and the accumulator of
popped one-shot timers (after their `m_cb = nullptr` mutation).  `none`
means the loop has not terminated within `fuel` iterations. -/
def listExpiredLoop :
    Nat → Bool → Int → List Timer → List (Option Nat) → List Timer →
      Option (List Timer × List (Option Nat) × List Timer)
  | 0, _, _, _, _, _ => none
  | Nat.succ fuel, rollover, now, timers, cbs, popped =>
    match timers with
    | [] => some ([], cbs, popped)
    | t :: rest =>
      if rollover ∨ t.m_next ≤ now then
        let cbs' := cbs ++ [t.m_cb]
        if t.m_recurring then
          listExpiredLoop fuel rollover now
            (setInsert { t with m_next := now + (t.m_ms : Int) } rest).1 cbs' popped
        else
          listExpiredLoop fuel rollover now rest cbs' (popped ++ [{ t with m_cb := none }])
      else some (t :: rest, cbs, popped)

/-- `TimerManager::listExpiredCb(cbs)`: detects rollover (updating
`m_previouseTime`), then runs the drain loop.  Returns the updated
manager, the collected callbacks and the popped one-shot timers, or
`none` when the loop does not finish within `fuel` iterations. -/
def TimerManager.listExpiredCb (mgr : TimerManager) (now : Int) (fuel : Nat) :
    Option (TimerManager × List (Option Nat) × List Timer) :=
  let rolled := mgr.detectClockRollover now
  match listExpiredLoop fuel rolled.2 now rolled.1.m_timers [] [] with
  | none => none
  | some (ts, cbs, popped) =>
    some ({ rolled.1 with m_timers := ts }, cbs, popped)

/-- `Timer::reset(ms, from_now)` returns the updated manager, the updated
timer object and the returned `bool`. -/
structure ResetResult where
  mgr : TimerManager
  timer : Timer
  ret : Bool
deriving DecidableEq, Repr

/-- `Timer::reset(ms, from_now)`: early-out `true` when `ms == m_ms` and
`!from_now`; `false` when the callback is null or no element of the set is
equivalent to this timer (`std::set::find` compares only `m_next`); else
erases the found element, recomputes the deadline from the old start point
(`m_next - m_ms`) or from `now`, and re-adds the timer. -/
def Timer.reset (t : Timer) (mgr : TimerManager) (ms : Nat) (from_now : Bool) (now : Int) :
    ResetResult :=
  if ms = t.m_ms ∧ from_now = false then ⟨mgr, t, true⟩
  else if t.m_cb = none then ⟨mgr, t, false⟩
  else
    match mgr.m_timers.find? (fun u => u.m_next == t.m_next) with
    | none => ⟨mgr, t, false⟩
    | some _ =>
      let timers' := mgr.m_timers.eraseP (fun u => u.m_next == t.m_next)
      let start := if from_now then now else t.m_next - (t.m_ms : Int)
      let t' : Timer := { t with m_ms := ms, m_next := start + (ms : Int) }
      ⟨(TimerManager.addTimer { mgr with m_timers := timers' } t').1, t', true⟩

/-! ## Fiber model (`fiber.h`, `fiber.cpp`) -/

/-- `Fiber::State`. -/
inductive FiberState where
  | READY
  | RUNNING
  | TERM
deriving DecidableEq, Repr

/-- The per-fiber fields the state machine touches: `m_state`, the entry
closure `m_cb` (an opaque id, `none` = `nullptr`) and whether `m_stack`
is non-null (a child fiber owns a stack; a thread-root fiber does not). -/
structure Fiber where
  m_state : FiberState
  m_cb : Option Nat
  m_stack : Bool
deriving DecidableEq, Repr

/-- `Fiber::resume()`: `assert(m_state == READY)` then `m_state = RUNNING`
(then switches context).  `none` models the failed assert. -/
def Fiber.resume (f : Fiber) : Option Fiber :=
  if f.m_state = FiberState.READY then some { f with m_state := FiberState.RUNNING }
  else none

/-- `Fiber::yield()`: `assert(m_state == RUNNING || m_state == TERM)`;
sets `m_state = READY` unless the state is `TERM`. -/
def Fiber.yield (f : Fiber) : Option Fiber :=
  if f.m_state = FiberState.RUNNING ∨ f.m_state = FiberState.TERM then
    some (if f.m_state ≠ FiberState.TERM then { f with m_state := FiberState.READY } else f)
  else none

/-- `Fiber::MainFunc` after the entry closure returns: clears `m_cb`, sets
`m_state = TERM`, and calls `yield()`.  Calling a null `std::function`
is undefined behaviour, so a fiber with no closure gives `none`. -/
def Fiber.mainFunc (f : Fiber) : Option Fiber :=
  match f.m_cb with
  | none => none
  | some _ => Fiber.yield { f with m_cb := none, m_state := FiberState.TERM }

/-- `Fiber::reset(cb)`: `assert(m_stack != nullptr && m_state == TERM)`,
then `m_state = READY` and the new closure is installed (the context is
rebound to `MainFunc`). -/
def Fiber.reset (f : Fiber) (cb : Nat) : Option Fiber :=
  if f.m_stack = true ∧ f.m_state = FiberState.TERM then
    some { f with m_state := FiberState.READY, m_cb := some cb }
  else none

/-- One observable transition of a fiber's state machine.  `mainFunc` runs
only inside the context entered by `resume` (bound by `makecontext`), so
its source state is `RUNNING`. -/
inductive FiberStep : Fiber → Fiber → Prop where
  | resume (f f' : Fiber) : f.resume = some f' → FiberStep f f'
  | yield (f f' : Fiber) : f.yield = some f' → FiberStep f f'
  | mainFunc (f f' : Fiber) : f.m_state = FiberState.RUNNING → f.mainFunc = some f' →
      FiberStep f f'
  | reset (f f' : Fiber) (cb : Nat) : f.reset cb = some f' → FiberStep f f'

/-- The transitions the specification's state machine allows:
READY —resume→ RUNNING; RUNNING —yield→ READY; RUNNING —entry returns→
TERM; TERM —yield→ TERM (yield does not leave TERM); TERM —reset→ READY. -/
def allowedTransition : FiberState → FiberState → Prop
  | FiberState.READY, FiberState.RUNNING => True
  | FiberState.RUNNING, FiberState.READY => True
  | FiberState.RUNNING, FiberState.TERM => True
  | FiberState.TERM, FiberState.TERM => True
  | FiberState.TERM, FiberState.READY => True
  | _, _ => False

/-- `Fiber::GetFiberId()` over the thread-local `t_fiber` register,
modelled as the id of the currently running fiber (`none` = no fiber has
been initialized on this thread).  Returns the id and the register after
the call (the function only reads it; `GetThis()` is never called). -/
def GetFiberId (t_fiber : Option Nat) : Nat × Option Nat :=
  match t_fiber with
  | some i => (i, t_fiber)
  | none => (2 ^ 64 - 1, t_fiber)

/-! ## Scheduler model (`scheduler.h`) -/

/-- `Scheduler::ScheduleTask`: a coroutine handle or a plain callable
(both opaque ids, `none` = null) plus the target thread id. -/
structure ScheduleTask where
  fiber : Option Nat
  cb : Option Nat
  thread : Int
deriving DecidableEq, Repr

/-- `Scheduler::scheduleLock(fc, thread)`: under the queue mutex, records
whether the queue was empty, appends the task when it holds a fiber or a
callback, and afterwards calls `tickle()` exactly when the queue was
empty.  Returns the new queue and whether `tickle()` was issued. -/
def scheduleLock (m_tasks : List ScheduleTask) (fc : ScheduleTask) :
    List ScheduleTask × Bool :=
  let need_tickle := m_tasks.isEmpty
  let m_tasks' :=
    if fc.fiber.isSome || fc.cb.isSome then m_tasks ++ [fc] else m_tasks
  (m_tasks', need_tickle)

/-! ## IOManager model (`ioscheduler.h`, `ioscheduler.cpp`) -/

/-- `IOManager::FdContext::EventContext`: scheduler pointer, coroutine
handle and callback, all opaque ids with `none` = null. -/
structure EventContext where
  scheduler : Option Nat
  fiber : Option Nat
  cb : Option Nat
deriving DecidableEq, Repr

/-- The empty `EventContext` that `resetEventContext` produces. -/
def EventContext.empty : EventContext := ⟨none, none, none⟩

/-- `IOManager::FdContext`: the two per-event contexts, the fd number and
the registered-events bitmask (`READ = 0x1`, `WRITE = 0x4`). -/
structure FdContext where
  read : EventContext
  write : EventContext
  fd : Nat
  events : Nat
deriving DecidableEq, Repr

/-- `IOManager::FdContext::getEventContext(event)`: `read` for `READ`,
`write` for `WRITE`, assertion failure (`none`) otherwise. -/
def FdContext.getEventContext (fdc : FdContext) (ev : Nat) : Option EventContext :=
  if ev = 1 then some fdc.read
  else if ev = 4 then some fdc.write
  else none

/-- Store an event's context back (the C++ mutates through the reference
`getEventContext` returned). -/
def FdContext.setEventContext (fdc : FdContext) (ev : Nat) (c : EventContext) : FdContext :=
  if ev = 1 then { fdc with read := c } else { fdc with write := c }

/-- `IOManager::FdContext::triggerEvent(event)`: asserts the bit is set,
clears it (`events & ~event` over the 32-bit mask), submits the
registered callback — or, when there is none, the registered fiber — to
the scheduler via `scheduleLock`, and resets the event's context.
Returns the updated `FdContext` and the list of submitted tasks. -/
def FdContext.triggerEvent (fdc : FdContext) (ev : Nat) :
    Option (FdContext × List ScheduleTask) :=
  if fdc.events &&& ev = 0 then none
  else
    let fdc1 : FdContext := { fdc with events := fdc.events &&& (4294967295 ^^^ ev) }
    match fdc1.getEventContext ev with
    | none => none
    | some ctx =>
      let task : ScheduleTask :=
        match ctx.cb with
        | some c => ⟨none, some c, -1⟩
        | none => ⟨ctx.fiber, none, -1⟩
      some (fdc1.setEventContext ev EventContext.empty, [task])

/-- One `epoll_ctl` call: the operation, the fd and the `events` mask
passed (the mask always carries `EPOLLET = 0x80000000`). -/
inductive EpollOp where
  | add (fd : Nat) (mask : Nat)
  | mod (fd : Nat) (mask : Nat)
  | del (fd : Nat) (mask : Nat)
deriving DecidableEq, Repr

/-- The `IOManager` state the event operations touch: the fd-context
vector and the atomic pending-event counter. -/
structure IOManagerState where
  m_fdContexts : List FdContext
  m_pendingEventCount : Nat
deriving DecidableEq, Repr

/-- `IOManager::contextResize(size)`: `vector::resize` then allocate a
fresh `FdContext` (with `fd = i`) in every null slot. -/
def contextResize (l : List FdContext) (size : Nat) : List FdContext :=
  if size ≤ l.length then l.take size
  else
    l ++ (List.range' l.length (size - l.length)).map
      (fun i => ⟨EventContext.empty, EventContext.empty, i, 0⟩)

/-- `IOManager::addEvent(fd, event, cb)`.  `epollOk` is the oracle for the
one `epoll_ctl` call (`true` = returned 0); `sched` models
`Scheduler::GetThis()` and `curFiber` models `Fiber::GetThis()` for the
null-callback path.  `none` models an assertion failure or the
out-of-bounds `m_fdContexts[fd]` access after a too-small resize;
otherwise the new state, the `int` return value and the log of issued
`epoll_ctl` operations. -/
def addEvent (st : IOManagerState) (fd : Nat) (ev : Nat) (cb : Option Nat)
    (epollOk : Bool) (sched : Nat) (curFiber : Nat) :
    Option (IOManagerState × Int × List EpollOp) :=
  let ctxs :=
    if fd < st.m_fdContexts.length then st.m_fdContexts
    else contextResize st.m_fdContexts (fd * 3 / 2)
  let st1 : IOManagerState := { st with m_fdContexts := ctxs }
  match ctxs[fd]? with
  | none => none
  | some fdc =>
    if fdc.events &&& ev ≠ 0 then some (st1, -1, [])
    else
      let mask := 2147483648 ||| fdc.events ||| ev
      let op := if fdc.events ≠ 0 then EpollOp.mod fd mask else EpollOp.add fd mask
      if epollOk = false then some (st1, -1, [op])
      else
        match fdc.getEventContext ev with
        | none => none
        | some ectx =>
          if ectx.scheduler ≠ none ∨ ectx.fiber ≠ none ∨ ectx.cb ≠ none then none
          else
            let ectx' : EventContext :=
              match cb with
              | some c => ⟨some sched, none, some c⟩
              | none => ⟨some sched, some curFiber, none⟩
            let fdc' := { fdc.setEventContext ev ectx' with events := fdc.events ||| ev }
            some ({ m_fdContexts := ctxs.set fd fdc',
                    m_pendingEventCount := st1.m_pendingEventCount + 1 }, 0, [op])

/-- `IOManager::delEvent(fd, event)`.  Returns the new state, the `bool`
result and the `epoll_ctl` log; `none` models the `getEventContext`
assertion.  Note: the `epoll_ctl`-failure branch executes `return -1` in
a function returning `bool`, and `(bool)-1 == true`. -/
def delEvent (st : IOManagerState) (fd : Nat) (ev : Nat) (epollOk : Bool) :
    Option (IOManagerState × Bool × List EpollOp) :=
  match st.m_fdContexts[fd]? with
  | none => some (st, false, [])
  | some fdc =>
    if fdc.events &&& ev = 0 then some (st, false, [])
    else
      let new_events := fdc.events &&& (4294967295 ^^^ ev)
      let mask := 2147483648 ||| new_events
      let op := if new_events ≠ 0 then EpollOp.mod fd mask else EpollOp.del fd mask
      if epollOk = false then some (st, true, [op])
      else
        match fdc.getEventContext ev with
        | none => none
        | some _ =>
          let fdc' := ({ fdc with events := new_events }).setEventContext ev EventContext.empty
          some ({ m_fdContexts := st.m_fdContexts.set fd fdc',
                  m_pendingEventCount := st.m_pendingEventCount - 1 }, true, [op])

/-- `IOManager::cancelEvent(fd, event)`: like `delEvent` but the success
path calls `triggerEvent`, so the waiter is submitted.  Returns the new
state, the `bool` result, the `epoll_ctl` log and the submitted tasks.
As in `delEvent`, the `epoll_ctl`-failure branch returns `(bool)-1 ==
true`. -/
def cancelEvent (st : IOManagerState) (fd : Nat) (ev : Nat) (epollOk : Bool) :
    Option (IOManagerState × Bool × List EpollOp × List ScheduleTask) :=
  match st.m_fdContexts[fd]? with
  | none => some (st, false, [], [])
  | some fdc =>
    if fdc.events &&& ev = 0 then some (st, false, [], [])
    else
      let new_events := fdc.events &&& (4294967295 ^^^ ev)
      let mask := 2147483648 ||| new_events
      let op := if new_events ≠ 0 then EpollOp.mod fd mask else EpollOp.del fd mask
      if epollOk = false then some (st, true, [op], [])
      else
        match fdc.triggerEvent ev with
        | none => none
        | some (fdc', tasks) =>
          some ({ m_fdContexts := st.m_fdContexts.set fd fdc',
                  m_pendingEventCount := st.m_pendingEventCount - 1 }, true, [op], tasks)

/-! ## Theorems -/

/-- Inserting a timer whose deadline already occurs in a sorted set is a
no-op: the comparator sees an equivalent element and `insert` fails. -/
theorem setInsert_of_mem_eq_next {l : List Timer} {t u : Timer}
    (hs : timersSorted l) (hu : u ∈ l) (he : u.m_next = t.m_next) :
    (setInsert t l).1 = l := by
  induction l with
  | nil => cases hu
  | cons x xs ih =>
    rw [timersSorted, List.pairwise_cons] at hs
    rcases List.mem_cons.mp hu with rfl | hu
    · rw [setInsert]
      rw [if_neg (by omega), if_neg (by omega)]
    · have hx : x.m_next < u.m_next := hs.1 u hu
      rw [setInsert]
      rw [if_neg (by omega), if_pos (by omega)]
      simp only [List.cons.injEq, true_and]
      exact ih hs.2 hu

/-- C1, counterexample: two distinct timers with identical deadlines do
NOT both coexist.  Inserting timer 1 (deadline 100) and then the distinct
timer 2 with the same deadline leaves the set holding only timer 1: the
comparator compares only `m_next`, so the second `insert` is a no-op. -/
theorem addTimer_equal_deadlines_cex :
    ((TimerManager.addTimer
        (TimerManager.addTimer ⟨[], false, 0⟩ ⟨1, false, 5, 100, some 1⟩).1
        ⟨2, false, 5, 100, some 2⟩).1.m_timers = [⟨1, false, 5, 100, some 1⟩]) ∧
    (⟨2, false, 5, 100, some 2⟩ : Timer) ∉
      (TimerManager.addTimer
        (TimerManager.addTimer ⟨[], false, 0⟩ ⟨1, false, 5, 100, some 1⟩).1
        ⟨2, false, 5, 100, some 2⟩).1.m_timers := by
  decide

/-- C1, amended: the comparator breaks no ties, so when the sorted set
already holds a timer with the inserted timer's deadline, `addTimer`
leaves the set unchanged — the second of two distinct timers with equal
deadlines is dropped, and the two never coexist. -/
theorem addTimer_equal_deadline_dropped (mgr : TimerManager) (t u : Timer)
    (hs : timersSorted mgr.m_timers) (hu : u ∈ mgr.m_timers)
    (he : u.m_next = t.m_next) :
    (mgr.addTimer t).1.m_timers = mgr.m_timers :=
  setInsert_of_mem_eq_next hs hu he

/-- C1, witness: the amended theorem applied to a concrete one-element
set and a distinct timer with the same deadline. -/
theorem addTimer_equal_deadline_dropped_witness :
    (TimerManager.addTimer ⟨[⟨1, false, 5, 100, some 1⟩], false, 0⟩
      ⟨2, false, 5, 100, some 2⟩).1.m_timers = [⟨1, false, 5, 100, some 1⟩] :=
  addTimer_equal_deadline_dropped ⟨[⟨1, false, 5, 100, some 1⟩], false, 0⟩
    ⟨2, false, 5, 100, some 2⟩ ⟨1, false, 5, 100, some 1⟩
    (by simp [timersSorted]) (by decide) rfl

/-- Helper: `getNextTimer` only clears `m_tickled`; the timer set and the
previous-probe time are untouched. -/
theorem getNextTimer_fst (mgr : TimerManager) (now : Int) :
    (mgr.getNextTimer now).1 = { mgr with m_tickled := false } := by
  unfold TimerManager.getNextTimer
  cases h : mgr.m_timers with
  | nil => simp [h]
  | cons t ts => simp only [h]; split <;> rfl

/-- C4: `getNextTimer` clears the front-dirty flag `m_tickled`, leaves
the timer set unchanged, and returns ALL_ONES (`~0ull`) when the set is
empty, 0 when the front deadline is at or before `now`, and otherwise the
millisecond difference between the front deadline and `now`. -/
theorem getNextTimer_spec (mgr : TimerManager) (now : Int) :
    (mgr.getNextTimer now).1.m_tickled = false ∧
    (mgr.getNextTimer now).1.m_timers = mgr.m_timers ∧
    (mgr.m_timers = [] → (mgr.getNextTimer now).2 = allOnes) ∧
    ∀ t ts, mgr.m_timers = t :: ts →
      (t.m_next ≤ now → (mgr.getNextTimer now).2 = 0) ∧
      (now < t.m_next → ((mgr.getNextTimer now).2 : Int) = t.m_next - now) := by
  refine ⟨by rw [getNextTimer_fst], by rw [getNextTimer_fst], ?_, ?_⟩
  · intro h
    unfold TimerManager.getNextTimer
    simp [h]
  · intro t ts h
    unfold TimerManager.getNextTimer
    simp only [h]
    constructor
    · intro hle
      rw [if_pos hle]
    · intro hlt
      rw [if_neg (by omega)]
      simp only
      rw [Int.toNat_of_nonneg (by omega)]

/-- Helper: under rollover, the loop reaches a fixed point on a single
recurring timer whose deadline equals `now + period`: each iteration pops
it, appends its callback again and reinserts it unchanged, so no fuel
suffices. -/
theorem listExpiredLoop_rollover_fix (fuel : Nat) (cbs : List (Option Nat))
    (popped : List Timer) :
    listExpiredLoop fuel true 0 [⟨1, true, 500, 500, some 7⟩] cbs popped = none := by
  induction fuel generalizing cbs with
  | zero => rfl
  | succ n ih =>
    rw [listExpiredLoop]
    simp only [setInsert]
    norm_num
    exact ih _

/-- C5 (code bug): when a clock rollover is detected while a recurring
timer is pending, the drain loop of `listExpiredCb` never terminates:
`rollover` stays true for the whole loop, and each iteration pops the
recurring timer, records its callback once more and reinserts it, so the
set never empties.  Concretely: previous probe at 3 700 000 ms, `now` at
0 ms (a backward jump of more than one hour) and a single recurring timer
of period 500 ms; for every fuel bound the loop is still running.  The
claim (and spec) instead promise that every pending timer fires once. -/
theorem listExpiredCb_rollover_recurring_diverges (fuel : Nat) :
    TimerManager.listExpiredCb ⟨[⟨1, true, 500, 100, some 7⟩], false, 3700000⟩ 0 fuel
      = none := by
  have hloop : listExpiredLoop fuel true 0 [⟨1, true, 500, 100, some 7⟩] [] [] = none := by
    cases fuel with
    | zero => rfl
    | succ m =>
      rw [listExpiredLoop]
      simp only [setInsert]
      norm_num
      exact listExpiredLoop_rollover_fix m [some 7] []
  unfold TimerManager.listExpiredCb TimerManager.detectClockRollover
  norm_num
  rw [hloop]

/-- C10, counterexample: a timer whose callback is live but which is NOT in
the manager's set, while a distinct timer with the same deadline is, gets
`reset(20, from_now=false)` (no early-out: 20 ≠ its period 10) answered
with `true` — `std::set::find` compares only deadlines and finds the other
timer — where the claim requires `false` for a timer absent from the set. -/
theorem timer_reset_absent_cex :
    (Timer.reset ⟨2, false, 10, 100, some 2⟩
        ⟨[⟨1, false, 50, 100, some 1⟩], false, 0⟩ 20 false 0).ret = true ∧
    (⟨2, false, 10, 100, some 2⟩ : Timer) ∉
      (⟨[⟨1, false, 50, 100, some 1⟩], false, 0⟩ : TimerManager).m_timers ∧
    (⟨2, false, 10, 100, some 2⟩ : Timer).m_cb ≠ none := by
  decide

/-- C10, amended: `reset(ms, from_now=false)` with `ms` equal to the
current period returns `true` immediately and changes nothing, even on a
cancelled/fired timer; a call that misses the early-out returns `false`
(changing nothing) on a cancelled/fired timer, and on a timer absent from
the set provided no OTHER timer in the set carries an equal deadline —
the set lookup compares only deadlines, so an equal-deadline timer in the
set makes `reset` succeed (erasing that timer) even though the receiver
was absent. -/
theorem timer_reset_spec (t : Timer) (mgr : TimerManager) (ms : Nat)
    (from_now : Bool) (now : Int) :
    (ms = t.m_ms ∧ from_now = false →
      Timer.reset t mgr ms from_now now = ⟨mgr, t, true⟩) ∧
    (¬(ms = t.m_ms ∧ from_now = false) → t.m_cb = none →
      Timer.reset t mgr ms from_now now = ⟨mgr, t, false⟩) ∧
    (¬(ms = t.m_ms ∧ from_now = false) → t.m_cb ≠ none →
      (∀ u ∈ mgr.m_timers, u.m_next ≠ t.m_next) →
      Timer.reset t mgr ms from_now now = ⟨mgr, t, false⟩) := by
  refine ⟨?_, ?_, ?_⟩
  · intro h
    unfold Timer.reset
    rw [if_pos h]
  · intro h hcb
    unfold Timer.reset
    rw [if_neg h, if_pos hcb]
  · intro h hcb hno
    unfold Timer.reset
    rw [if_neg h, if_neg hcb]
    have hfind : mgr.m_timers.find? (fun u => u.m_next == t.m_next) = none := by
      rw [List.find?_eq_none]
      intro u hu
      simpa using hno u hu
    rw [hfind]

/-- C6: the fiber state machine.  `resume` succeeds exactly from READY
and yields RUNNING; `yield` succeeds exactly from RUNNING (going to
READY) or TERM (staying TERM); the trampoline, once the entry closure
returns, clears the closure and ends in TERM; `reset` succeeds exactly on
a TERM fiber owning a stack and yields READY with the new closure; and
every observable step realises one of the allowed transitions
READY→RUNNING, RUNNING→READY, RUNNING→TERM, TERM→TERM, TERM→READY. -/
theorem fiber_state_machine :
    (∀ f f' : Fiber, f.resume = some f' ↔
      f.m_state = FiberState.READY ∧ f' = { f with m_state := FiberState.RUNNING }) ∧
    (∀ f f' : Fiber, f.yield = some f' ↔
      ((f.m_state = FiberState.RUNNING ∧ f' = { f with m_state := FiberState.READY }) ∨
       (f.m_state = FiberState.TERM ∧ f' = f))) ∧
    (∀ f f' : Fiber, f.mainFunc = some f' ↔
      ((∃ c, f.m_cb = some c) ∧
        f' = { f with m_cb := none, m_state := FiberState.TERM })) ∧
    (∀ (f f' : Fiber) (cb : Nat), f.reset cb = some f' ↔
      (f.m_stack = true ∧ f.m_state = FiberState.TERM ∧
        f' = { f with m_state := FiberState.READY, m_cb := some cb })) ∧
    (∀ f f' : Fiber, FiberStep f f' → allowedTransition f.m_state f'.m_state) := by
  have hresume : ∀ f f' : Fiber, f.resume = some f' ↔
      f.m_state = FiberState.READY ∧ f' = { f with m_state := FiberState.RUNNING } := by
    intro f f'
    by_cases hs : f.m_state = FiberState.READY
    · rw [Fiber.resume, if_pos hs]
      constructor
      · intro hx
        exact ⟨hs, (Option.some_inj.mp hx).symm⟩
      · rintro ⟨-, rfl⟩
        rfl
    · rw [Fiber.resume, if_neg hs]
      constructor
      · intro hx
        exact Option.noConfusion hx
      · rintro ⟨h1, -⟩
        exact absurd h1 hs
  have hyield : ∀ f f' : Fiber, f.yield = some f' ↔
      ((f.m_state = FiberState.RUNNING ∧ f' = { f with m_state := FiberState.READY }) ∨
       (f.m_state = FiberState.TERM ∧ f' = f)) := by
    intro f f'
    cases h : f.m_state with
    | READY => simp [Fiber.yield, h]
    | RUNNING => simp [Fiber.yield, h, eq_comm]
    | TERM => simp [Fiber.yield, h, eq_comm]
  have hmain : ∀ f f' : Fiber, f.mainFunc = some f' ↔
      ((∃ c, f.m_cb = some c) ∧
        f' = { f with m_cb := none, m_state := FiberState.TERM }) := by
    intro f f'
    cases h : f.m_cb with
    | none => simp [Fiber.mainFunc, h]
    | some c => simp [Fiber.mainFunc, Fiber.yield, h, eq_comm]
  have hreset : ∀ (f f' : Fiber) (cb : Nat), f.reset cb = some f' ↔
      (f.m_stack = true ∧ f.m_state = FiberState.TERM ∧
        f' = { f with m_state := FiberState.READY, m_cb := some cb }) := by
    intro f f' cb
    by_cases hs : f.m_stack = true ∧ f.m_state = FiberState.TERM
    · rw [Fiber.reset, if_pos hs]
      constructor
      · intro hx
        exact ⟨hs.1, hs.2, (Option.some_inj.mp hx).symm⟩
      · rintro ⟨-, -, rfl⟩
        rfl
    · rw [Fiber.reset, if_neg hs]
      constructor
      · intro hx
        exact Option.noConfusion hx
      · rintro ⟨h1, h2, -⟩
        exact absurd ⟨h1, h2⟩ hs
  refine ⟨hresume, hyield, hmain, hreset, ?_⟩
  intro f f' hstep
  cases hstep with
  | resume h =>
    obtain ⟨h1, h2⟩ := (hresume f f').mp h
    rw [h2]
    simp [allowedTransition, h1]
  | yield h =>
    rcases (hyield f f').mp h with ⟨h1, h2⟩ | ⟨h1, h2⟩ <;>
      rw [h2] <;> simp [allowedTransition, h1]
  | mainFunc hrun h =>
    obtain ⟨-, h2⟩ := (hmain f f').mp h
    rw [h2]
    simp [allowedTransition, hrun]
  | reset cb h =>
    obtain ⟨-, h2, h3⟩ := (hreset f f' cb).mp h
    rw [h3]
    simp [allowedTransition, h2]

/-- C7: `scheduleLock` appends the task (which carries a fiber or a
callback) to the queue and issues `tickle()` exactly when the queue was
empty immediately before the insertion. -/
theorem scheduleLock_spec (tasks : List ScheduleTask) (task : ScheduleTask)
    (h : task.fiber.isSome = true ∨ task.cb.isSome = true) :
    (scheduleLock tasks task).1 = tasks ++ [task] ∧
    ((scheduleLock tasks task).2 = true ↔ tasks = []) := by
  unfold scheduleLock
  constructor
  · rcases h with h | h <;> simp [h]
  · simp [List.isEmpty_iff]

/-- C7, witness: scheduling a fiber task on the empty queue appends it
and reports the empty-to-non-empty edge. -/
theorem scheduleLock_spec_witness :
    (scheduleLock [] ⟨some 3, none, -1⟩).1 = [] ++ [⟨some 3, none, -1⟩] ∧
    ((scheduleLock [] ⟨some 3, none, -1⟩).2 = true ↔ ([] : List ScheduleTask) = []) :=
  scheduleLock_spec [] ⟨some 3, none, -1⟩ (Or.inl rfl)

/-- C9: `GetFiberId` returns `(uint64_t)-1 = 2^64 - 1` when no fiber has
been initialized on the thread, returns the current fiber's id otherwise,
and never creates a fiber as a side effect (the thread-local register is
returned unchanged). -/
theorem getFiberId_spec (t_fiber : Option Nat) :
    (GetFiberId t_fiber).2 = t_fiber ∧
    (t_fiber = none → (GetFiberId t_fiber).1 = 2 ^ 64 - 1) ∧
    (∀ i, t_fiber = some i → (GetFiberId t_fiber).1 = i) := by
  cases t_fiber <;> simp [GetFiberId]

/-- C2: `triggerEvent` on a registered event (READ = 1 or WRITE = 4, bit
set in `events`) clears exactly that bit, submits the registered waiter —
the callback when one was registered, else the coroutine — to the
scheduler exactly once, and resets that event's `EventContext` to empty. -/
theorem triggerEvent_one_shot (fdc : FdContext) (ev : Nat)
    (hev : ev = 1 ∨ ev = 4) (hset : fdc.events &&& ev ≠ 0) :
    ∃ p : FdContext × List ScheduleTask, fdc.triggerEvent ev = some p ∧
      p.1.events = fdc.events &&& (4294967295 ^^^ ev) ∧
      p.1.events &&& ev = 0 ∧
      p.1.getEventContext ev = some EventContext.empty ∧
      p.2.length = 1 ∧
      (∀ ctx, fdc.getEventContext ev = some ctx →
        p.2 = [match ctx.cb with
               | some c => (⟨none, some c, -1⟩ : ScheduleTask)
               | none => (⟨ctx.fiber, none, -1⟩ : ScheduleTask)]) := by
  rcases hev with rfl | rfl
  · refine ⟨({ fdc with
        events := fdc.events &&& (4294967295 ^^^ 1)
        read := EventContext.empty },
      [match fdc.read.cb with
       | some c => (⟨none, some c, -1⟩ : ScheduleTask)
       | none => (⟨fdc.read.fiber, none, -1⟩ : ScheduleTask)]),
      ?_, rfl, ?_, rfl, rfl, ?_⟩
    · rw [FdContext.triggerEvent, if_neg hset]
      rfl
    · rw [Nat.and_assoc, (by decide : (4294967295 ^^^ 1) &&& 1 = 0)]
      exact Nat.and_zero _
    · intro ctx hctx
      rw [show fdc.getEventContext 1 = some fdc.read from rfl] at hctx
      rw [← Option.some_inj.mp hctx]
  · refine ⟨({ fdc with
        events := fdc.events &&& (4294967295 ^^^ 4)
        write := EventContext.empty },
      [match fdc.write.cb with
       | some c => (⟨none, some c, -1⟩ : ScheduleTask)
       | none => (⟨fdc.write.fiber, none, -1⟩ : ScheduleTask)]),
      ?_, rfl, ?_, rfl, rfl, ?_⟩
    · rw [FdContext.triggerEvent, if_neg hset]
      rfl
    · rw [Nat.and_assoc, (by decide : (4294967295 ^^^ 4) &&& 4 = 0)]
      exact Nat.and_zero _
    · intro ctx hctx
      rw [show fdc.getEventContext 4 = some fdc.write from rfl] at hctx
      rw [← Option.some_inj.mp hctx]

/-- C2, witness: triggering READ on an fd context with READ registered to
callback 9 (scheduler 1). -/
theorem triggerEvent_one_shot_witness :
    ∃ p : FdContext × List ScheduleTask,
      FdContext.triggerEvent ⟨⟨some 1, none, some 9⟩, EventContext.empty, 3, 1⟩ 1
        = some p := by
  obtain ⟨p, hp, -⟩ :=
    triggerEvent_one_shot ⟨⟨some 1, none, some 9⟩, EventContext.empty, 3, 1⟩ 1
      (Or.inl rfl) (by decide)
  exact ⟨p, hp⟩

/-- C3 (code bug), evaluated at the failing input: state with fd 0 whose
READ bit is registered (pending count 1) and an `epoll_ctl` that fails.
`addEvent(0, WRITE)` does return -1 with the state unchanged, but
`delEvent(0, READ)` and `cancelEvent(0, READ)` execute `return -1` in a
function returning `bool`, which converts to `true` — the same value as
success, so no failure is reported — while the state is left unchanged. -/
theorem epoll_ctl_failure_returns :
    (addEvent ⟨[⟨⟨some 1, some 2, none⟩, EventContext.empty, 0, 1⟩], 1⟩ 0 4 (some 9)
        false 0 0
      = some (⟨[⟨⟨some 1, some 2, none⟩, EventContext.empty, 0, 1⟩], 1⟩, -1,
          [EpollOp.mod 0 (2147483648 ||| 1 ||| 4)])) ∧
    (delEvent ⟨[⟨⟨some 1, some 2, none⟩, EventContext.empty, 0, 1⟩], 1⟩ 0 1 false
      = some (⟨[⟨⟨some 1, some 2, none⟩, EventContext.empty, 0, 1⟩], 1⟩, true,
          [EpollOp.del 0 2147483648])) ∧
    (cancelEvent ⟨[⟨⟨some 1, some 2, none⟩, EventContext.empty, 0, 1⟩], 1⟩ 0 1 false
      = some (⟨[⟨⟨some 1, some 2, none⟩, EventContext.empty, 0, 1⟩], 1⟩, true,
          [EpollOp.del 0 2147483648], [])) := by
  refine ⟨?_, ?_, ?_⟩ <;> rfl

/-- C8: `addEvent` on an (fd, event) pair whose bit is already set in the
fd's context returns -1 and leaves everything unchanged: the whole state
(fd-context vector — so the events mask and both EventContexts — and the
pending-event counter) is returned as it was, and no `epoll_ctl`
operation is issued. -/
theorem addEvent_already_registered (st : IOManagerState) (fd ev : Nat)
    (cb : Option Nat) (epollOk : Bool) (sched curFiber : Nat) (fdc : FdContext)
    (hfd : st.m_fdContexts[fd]? = some fdc) (hset : fdc.events &&& ev ≠ 0) :
    addEvent st fd ev cb epollOk sched curFiber = some (st, -1, []) := by
  have hlt : fd < st.m_fdContexts.length := by
    by_contra hge
    rw [List.getElem?_eq_none (by omega)] at hfd
    exact Option.noConfusion hfd
  unfold addEvent
  rw [if_pos hlt]
  simp only [hfd, if_pos hset]

/-- C8, witness: adding READ on fd 0 when READ is already registered. -/
theorem addEvent_already_registered_witness :
    addEvent ⟨[⟨⟨some 1, some 2, none⟩, EventContext.empty, 0, 1⟩], 1⟩ 0 1 none true 0 0
      = some (⟨[⟨⟨some 1, some 2, none⟩, EventContext.empty, 0, 1⟩], 1⟩, -1, []) :=
  addEvent_already_registered ⟨[⟨⟨some 1, some 2, none⟩, EventContext.empty, 0, 1⟩], 1⟩
    0 1 none true 0 0 ⟨⟨some 1, some 2, none⟩, EventContext.empty, 0, 1⟩ rfl (by decide)

end sylar
